import Mathlib

/-!
Verification of the tactical target-acquisition challenge server (`main.go`).

The embedding models the core challenge lifecycle: geometry (Euclidean
distance and nearest-target selection), challenge generation, the shared
challenge registry (a map from challenge identifier to challenge record),
the background sweep, and the answer-grading handler.  Go `float64`
values are idealised as real numbers and `time.Time` instants as integer
nanosecond counts (`time.Second` = 10^9 ns).  Randomness is made explicit:
the generator takes the drawn count offset and the per-target unit draws
as parameters, constrained by the ranges the Go `rand` functions return.

The answer handler's interactions with the shared registry happen in two
separate critical sections (a read-locked lookup and a later write-locked
delete); a small scheduler model (`answerCriticalStep` / `runRace`)
captures the interleavings of two concurrent submissions.
-/

namespace MiniBoi

/-- A named 3D point, mirroring `Coordinate` in `main.go`. -/
structure Coordinate where
  ID : String
  X : ℝ
  Y : ℝ
  Z : ℝ

/-- A served challenge, mirroring `TargetChallenge`. -/
structure TargetChallenge where
  ChallengeID : String
  PlayerPos : Coordinate
  Targets : List Coordinate
  Timestamp : Int

/-- A parsed answer submission, mirroring `TargetResponse`. -/
structure TargetResponse where
  ChallengeID : String
  ClosestID : String

/-- A stored challenge record, mirroring `ChallengeData`.  `CreatedAt` is
the high-resolution creation instant in nanoseconds. -/
structure ChallengeData where
  Challenge : TargetChallenge
  ExpectedAnswer : String
  CreatedAt : Int

/-- One nanosecond count per second, mirroring Go's `time.Second`. -/
def timeSecond : Int := 1000000000

/-- Euclidean distance between two points, mirroring `distance3D`. -/
noncomputable def distance3D (p1 p2 : Coordinate) : ℝ :=
  let dx := p1.X - p2.X
  let dy := p1.Y - p2.Y
  let dz := p1.Z - p2.Z
  Real.sqrt (dx*dx + dy*dy + dz*dz)

/-- The scanning loop of `findClosestTarget`: walks the remaining targets
keeping the current best identifier and its distance, replacing them only
on a strictly smaller distance. -/
noncomputable def findClosestLoop (playerPos : Coordinate) :
    List Coordinate → String → ℝ → String × ℝ
  | [], closestID, minDistance => (closestID, minDistance)
  | target :: rest, closestID, minDistance =>
    if distance3D playerPos target < minDistance then
      findClosestLoop playerPos rest target.ID (distance3D playerPos target)
    else
      findClosestLoop playerPos rest closestID minDistance

/-- Mirrors `findClosestTarget`: empty input yields `""`, otherwise the
first target seeds the scan and the loop processes the tail. -/
noncomputable def findClosestTarget (playerPos : Coordinate)
    (targets : List Coordinate) : String :=
  match targets with
  | [] => ""
  | t0 :: rest => (findClosestLoop playerPos rest t0.ID (distance3D playerPos t0)).1

/-- Mirrors `generateChallenge`.  `idNum` stands for the draw
`rand.Intn(999999)`, `k` for the draw `rand.Intn(4)` (so the target count
is `5 + k`), and `draws i` for the three `rand.Float64()` results used
for target `i`'s coordinates (each in `[0,1)`). -/
noncomputable def generateChallenge (idNum k : Nat) (draws : Nat → ℝ × ℝ × ℝ)
    (nowUnix : Int) : TargetChallenge :=
  let challengeID := "TARG-" ++ toString idNum
  let playerPos : Coordinate := { ID := "PLAYER", X := 0, Y := 0, Z := 0 }
  let numTargets := 5 + k
  let targets := (List.range numTargets).map (fun i =>
    { ID := "T" ++ toString (i+1)
      X := ((draws i).1 - 0.5) * 200
      Y := ((draws i).2.1 - 0.5) * 200
      Z := ((draws i).2.2 - 0.5) * 100 : Coordinate })
  { ChallengeID := challengeID, PlayerPos := playerPos,
    Targets := targets, Timestamp := nowUnix }

/-- The shared registry `activeChallenges`, modelled as the map it is. -/
def Store : Type := String → Option ChallengeData

/-- Map read `activeChallenges[id]`. -/
def storeLookup (st : Store) (cid : String) : Option ChallengeData := st cid

/-- Map write `activeChallenges[id] = data` (overwrites any old entry). -/
def storeInsert (st : Store) (cid : String) (d : ChallengeData) : Store :=
  fun c => if c == cid then some d else st c

/-- Map removal `delete(activeChallenges, id)`. -/
def storeDelete (st : Store) (cid : String) : Store :=
  fun c => if c == cid then none else st c

/-- Mirrors `cleanupExpiredChallenges`: removes every record created
strictly before `now - 2s` and keeps every other record. -/
def cleanupExpiredChallenges (now : Int) (st : Store) : Store :=
  fun cid =>
    match st cid with
    | none => none
    | some d => if d.CreatedAt < now - 2 * timeSecond then none else some d

/-- The outcome the answer handler reports at the boundary. -/
inductive Verdict where
  | invalidJSON : Verdict
  | notFound : Verdict
  | expired (elapsed : Int) : Verdict
  | success (elapsed : Int) (targetId : String) : Verdict
  | failure (correctTarget chosenTarget : String)
      (correctDistance chosenDistance : ℝ) : Verdict

/-- The feedback loop of the failure branch: scans all targets, recording
the distance of the target whose identifier matches the expected answer
and of the one matching the chosen identifier; components start at `0`. -/
noncomputable def feedbackLoop (playerPos : Coordinate) (expected chosen : String) :
    List Coordinate → ℝ × ℝ → ℝ × ℝ
  | [], acc => acc
  | target :: rest, acc =>
    feedbackLoop playerPos expected chosen rest
      (if target.ID == expected then distance3D playerPos target else acc.1,
       if target.ID == chosen then distance3D playerPos target else acc.2)

/-- Mirrors `coordinatesAnswerHandler`.  `body` is the parse result of the
request body (`none` = malformed JSON), `now` the instant the handler
reads the clock.  Returns the verdict and the registry afterwards.  Note
the order of the code: lookup, then deadline check, then correctness; the
final `delete` is reached only on the success and failure paths. -/
noncomputable def coordinatesAnswerHandler (body : Option TargetResponse)
    (now : Int) (st : Store) : Verdict × Store :=
  match body with
  | none => (Verdict.invalidJSON, st)
  | some response =>
    match storeLookup st response.ChallengeID with
    | none => (Verdict.notFound, st)
    | some challengeData =>
      let elapsed := now - challengeData.CreatedAt
      if elapsed > timeSecond then
        (Verdict.expired elapsed, st)
      else if response.ClosestID == challengeData.ExpectedAnswer then
        (Verdict.success elapsed response.ClosestID,
         storeDelete st response.ChallengeID)
      else
        let fd := feedbackLoop challengeData.Challenge.PlayerPos
          challengeData.ExpectedAnswer response.ClosestID
          challengeData.Challenge.Targets (0, 0)
        (Verdict.failure challengeData.ExpectedAnswer response.ClosestID fd.1 fd.2,
         storeDelete st response.ChallengeID)

/-- Mirrors `coordinatesChallengeHandler`: generates a challenge, derives
the expected answer once, and stores the record (`nowInstant` is the
`time.Now()` read when the record is built). -/
noncomputable def coordinatesChallengeHandler (idNum k : Nat)
    (draws : Nat → ℝ × ℝ × ℝ) (nowUnix nowInstant : Int) (st : Store) : Store :=
  let challenge := generateChallenge idNum k draws nowUnix
  let expectedAnswer := findClosestTarget challenge.PlayerPos challenge.Targets
  storeInsert st challenge.ChallengeID
    { Challenge := challenge, ExpectedAnswer := expectedAnswer,
      CreatedAt := nowInstant }

/-- The registry-visible state of one in-flight submission: `pc = 0`
before the read-locked lookup, `pc = 1` after a successful in-deadline
lookup with the write-locked delete still pending, `pc = 2` finished.
`obs` is the record the submission observed (and graded), if any. -/
structure SubState where
  pc : Nat
  obs : Option ChallengeData

/-- One critical section of `coordinatesAnswerHandler` acting on the
shared registry.  Step `0` is the read-locked lookup (after which the
not-found and expired paths return without touching the registry again);
step `1` is the separate write-locked delete of the graded record. -/
def answerCriticalStep (response : TargetResponse) (now : Int)
    (p : SubState) (st : Store) : SubState × Store :=
  match p.pc with
  | 0 =>
    match storeLookup st response.ChallengeID with
    | none => ({ pc := 2, obs := none }, st)
    | some d =>
      if now - d.CreatedAt > timeSecond then
        ({ pc := 2, obs := some d }, st)
      else
        ({ pc := 1, obs := some d }, st)
  | 1 => ({ pc := 2, obs := p.obs }, storeDelete st response.ChallengeID)
  | _ => (p, st)

/-- Interleaves two submissions under a schedule: `true` runs the next
critical section of the first submission, `false` of the second. -/
def runRace (resp1 resp2 : TargetResponse) (now : Int) :
    List Bool → SubState × SubState × Store → SubState × SubState × Store
  | [], s => s
  | b :: bs, (p1, p2, st) =>
    if b then
      let r := answerCriticalStep resp1 now p1 st
      runRace resp1 resp2 now bs (r.1, p2, r.2)
    else
      let r := answerCriticalStep resp2 now p2 st
      runRace resp1 resp2 now bs (p1, r.1, r.2)

/-- The worked scenario of the spec: player at the origin, targets
`T1 = (10,0,0)` and `T2 = (3,0,0)`. -/
def sampleChallenge : TargetChallenge :=
  { ChallengeID := "TARG-1"
    PlayerPos := { ID := "PLAYER", X := 0, Y := 0, Z := 0 }
    Targets := [{ ID := "T1", X := 10, Y := 0, Z := 0 },
                { ID := "T2", X := 3, Y := 0, Z := 0 }]
    Timestamp := 0 }

/-- The stored record for `sampleChallenge`, created at instant `0`. -/
def sampleRecord : ChallengeData :=
  { Challenge := sampleChallenge, ExpectedAnswer := "T2", CreatedAt := 0 }

/-- A registry holding exactly `sampleRecord` under `"TARG-1"`. -/
def sampleStore : Store :=
  fun cid => if cid == "TARG-1" then some sampleRecord else none

/-! ### Store helper lemmas -/

/-- Deleting a key makes a subsequent lookup of that key observe absence. -/
theorem storeLookup_delete_self (st : Store) (cid : String) :
    storeLookup (storeDelete st cid) cid = none := by
  simp [storeLookup, storeDelete]

/-- Deleting a key leaves every other key's record untouched. -/
theorem storeLookup_delete_ne (st : Store) (cid c : String) (h : c ≠ cid) :
    storeLookup (storeDelete st cid) c = storeLookup st c := by
  simp [storeLookup, storeDelete, h]

/-- Inserting under a key leaves every other key's record untouched. -/
theorem storeLookup_insert_ne (st : Store) (cid c : String) (d : ChallengeData)
    (h : c ≠ cid) : storeLookup (storeInsert st cid d) c = storeLookup st c := by
  simp [storeLookup, storeInsert, h]

/-- Looking up the freshly inserted key yields the inserted record. -/
theorem storeLookup_insert_self (st : Store) (cid : String) (d : ChallengeData) :
    storeLookup (storeInsert st cid d) cid = some d := by
  simp [storeLookup, storeInsert]

/-! ### C8 — distance symmetry and self-distance -/

/-- C8: for all points `a` and `b`, `distance3D a b = distance3D b a`,
and `distance3D a a = 0`. -/
theorem distance3D_symm_and_self_zero (a b : Coordinate) :
    distance3D a b = distance3D b a ∧ distance3D a a = 0 := by
  constructor
  · simp only [distance3D]
    congr 1
    ring
  · simp [distance3D]

/-! ### C7 — malformed submissions mutate nothing -/

/-- C7: an unparseable submission body is rejected with the client-input
error verdict and the registry is returned completely unchanged. -/
theorem malformed_submission_no_mutation (now : Int) (st : Store) :
    coordinatesAnswerHandler none now st = (Verdict.invalidJSON, st) := rfl

/-! ### C2 — submissions past the deadline -/

/-- C2 counterexample: at `now = 2s`, a submission for the stored sample
record (created at instant `0`, so 2 s old) is answered `EXPIRED`, yet the
record is still present in the registry the handler returns — the claim's
"the record is removed from the Store by that submission" is false, and a
subsequent submission for the same identifier does not observe absence. -/
theorem expired_submission_keeps_record_cex :
    (coordinatesAnswerHandler (some ⟨"TARG-1", "T2"⟩) (2 * timeSecond) sampleStore).1
      = Verdict.expired (2 * timeSecond)
    ∧ storeLookup (coordinatesAnswerHandler (some ⟨"TARG-1", "T2"⟩)
        (2 * timeSecond) sampleStore).2 "TARG-1" = some sampleRecord :=
  ⟨rfl, rfl⟩

/-- C2 amended: a submission for a stored record whose elapsed time
exceeds the 1-second deadline is answered `EXPIRED` regardless of the
chosen target id, but the record is NOT removed by that submission — the
handler returns the registry unchanged, so the record stays until a sweep
or a later graded submission removes it. -/
theorem expired_submission_spec (st : Store) (resp : TargetResponse) (now : Int)
    (d : ChallengeData) (hfound : storeLookup st resp.ChallengeID = some d)
    (hlate : now - d.CreatedAt > timeSecond) :
    coordinatesAnswerHandler (some resp) now st
      = (Verdict.expired (now - d.CreatedAt), st) := by
  simp only [coordinatesAnswerHandler, hfound]
  simp [hlate]

/-- Witness for `expired_submission_spec` at the sample registry. -/
theorem expired_submission_spec_witness :
    storeLookup sampleStore "TARG-1" = some sampleRecord
    ∧ 2 * timeSecond - sampleRecord.CreatedAt > timeSecond
    ∧ coordinatesAnswerHandler (some ⟨"TARG-1", "T2"⟩) (2 * timeSecond) sampleStore
        = (Verdict.expired (2 * timeSecond - sampleRecord.CreatedAt), sampleStore) :=
  ⟨rfl, by decide,
    expired_submission_spec sampleStore ⟨"TARG-1", "T2"⟩ (2 * timeSecond)
      sampleRecord rfl (by decide)⟩

/-! ### C5 — the background sweep -/

/-- C5: after `cleanupExpiredChallenges` runs at instant `now`, a stored
record created strictly before `now - 2s` is absent, and a record created
at or after that cutoff is still present unchanged. -/
theorem cleanupExpiredChallenges_spec (st : Store) (now : Int) (cid : String)
    (d : ChallengeData) (hfound : storeLookup st cid = some d) :
    storeLookup (cleanupExpiredChallenges now st) cid
      = if d.CreatedAt < now - 2 * timeSecond then none else some d := by
  unfold storeLookup at hfound
  unfold cleanupExpiredChallenges storeLookup
  simp only [hfound]

/-- Witness for `cleanupExpiredChallenges_spec`: a 3-second-old record is
swept away, and the same record is kept by a sweep run 1 second after its
creation. -/
theorem cleanupExpiredChallenges_spec_witness :
    storeLookup sampleStore "TARG-1" = some sampleRecord
    ∧ storeLookup (cleanupExpiredChallenges (3 * timeSecond) sampleStore) "TARG-1"
        = if sampleRecord.CreatedAt < 3 * timeSecond - 2 * timeSecond then none
          else some sampleRecord :=
  ⟨rfl, cleanupExpiredChallenges_spec sampleStore (3 * timeSecond) "TARG-1"
    sampleRecord rfl⟩

/-! ### C1 — consumption is not atomic -/

/-- C1 counterexample: the lookup and the delete of the answer handler are
two separate critical sections, so under the schedule where both
submissions run their read-locked lookups before either write-locked
delete, BOTH submissions for `"TARG-1"` observe and receive the sample
record — contradicting "exactly one caller observes and receives the
record" (the record is graded twice). -/
theorem concurrent_consume_both_observe_cex :
    (runRace ⟨"TARG-1", "T2"⟩ ⟨"TARG-1", "T2"⟩ 0 [true, false, true, false]
        (⟨0, none⟩, ⟨0, none⟩, sampleStore)).1.obs = some sampleRecord
    ∧ (runRace ⟨"TARG-1", "T2"⟩ ⟨"TARG-1", "T2"⟩ 0 [true, false, true, false]
        (⟨0, none⟩, ⟨0, none⟩, sampleStore)).2.1.obs = some sampleRecord :=
  ⟨rfl, rfl⟩

/-- C1 amended: lookup and removal are two separate critical sections
(read-locked lookup, later write-locked delete), in contrast to one
atomic consume.  When one submission's two critical sections both
complete before the other submission's lookup, exactly one caller
observes the record and the other observes absence; but when the lookups
interleave before the deletes, both callers observe the record
(`concurrent_consume_both_observe_cex`). -/
theorem sequential_consume_exactly_one (st : Store) (resp : TargetResponse)
    (now : Int) (d : ChallengeData)
    (hfound : storeLookup st resp.ChallengeID = some d)
    (hdl : ¬ (now - d.CreatedAt > timeSecond)) :
    (runRace resp resp now [true, true, false, false]
        (⟨0, none⟩, ⟨0, none⟩, st)).1.obs = some d
    ∧ (runRace resp resp now [true, true, false, false]
        (⟨0, none⟩, ⟨0, none⟩, st)).2.1.obs = none := by
  have hdel := storeLookup_delete_self st resp.ChallengeID
  constructor <;> simp [runRace, answerCriticalStep, hfound, hdl, hdel]

/-- Witness for `sequential_consume_exactly_one` at the sample registry. -/
theorem sequential_consume_exactly_one_witness :
    storeLookup sampleStore "TARG-1" = some sampleRecord
    ∧ ¬ ((0:Int) - sampleRecord.CreatedAt > timeSecond)
    ∧ ((runRace ⟨"TARG-1", "T2"⟩ ⟨"TARG-1", "T2"⟩ 0 [true, true, false, false]
        (⟨0, none⟩, ⟨0, none⟩, sampleStore)).1.obs = some sampleRecord
      ∧ (runRace ⟨"TARG-1", "T2"⟩ ⟨"TARG-1", "T2"⟩ 0 [true, true, false, false]
        (⟨0, none⟩, ⟨0, none⟩, sampleStore)).2.1.obs = none) :=
  ⟨rfl, by decide,
    sequential_consume_exactly_one sampleStore ⟨"TARG-1", "T2"⟩ 0 sampleRecord
      rfl (by decide)⟩

/-! ### C4 — nearest-target selection -/

/-- Case analysis on the scanning loop: either no remaining target is
strictly closer than the incoming minimum and the accumulator survives,
or the loop returns the first remaining target that attains a distance
strictly below the incoming minimum and that no other remaining target
beats (earlier remaining targets being strictly farther). -/
theorem findClosestLoop_cases (p : Coordinate) :
    ∀ (ts : List Coordinate) (cid : String) (m : ℝ),
      (findClosestLoop p ts cid m = (cid, m) ∧ ∀ t ∈ ts, m ≤ distance3D p t)
      ∨ (∃ pre u post, ts = pre ++ u :: post
          ∧ findClosestLoop p ts cid m = (u.ID, distance3D p u)
          ∧ distance3D p u < m
          ∧ (∀ v ∈ ts, distance3D p u ≤ distance3D p v)
          ∧ (∀ v ∈ pre, distance3D p u < distance3D p v))
  | [], cid, m => Or.inl ⟨rfl, by simp⟩
  | t :: ts, cid, m => by
    by_cases h : distance3D p t < m
    · have step : findClosestLoop p (t :: ts) cid m
          = findClosestLoop p ts t.ID (distance3D p t) := by
        simp [findClosestLoop, h]
      rcases findClosestLoop_cases p ts t.ID (distance3D p t) with
        ⟨heq, hmin⟩ | ⟨pre, u, post, hts, heq, hlt, hmin, hpre⟩
      · refine Or.inr ⟨[], t, ts, by simp, by rw [step, heq], h, ?_, by simp⟩
        intro v hv
        rcases List.mem_cons.mp hv with rfl | hv
        · exact le_refl _
        · exact hmin v hv
      · refine Or.inr ⟨t :: pre, u, post, by simp [hts], by rw [step, heq],
          lt_trans hlt h, ?_, ?_⟩
        · intro v hv
          rcases List.mem_cons.mp hv with rfl | hv
          · exact le_of_lt hlt
          · exact hmin v hv
        · intro v hv
          rcases List.mem_cons.mp hv with rfl | hv
          · exact hlt
          · exact hpre v hv
    · have step : findClosestLoop p (t :: ts) cid m
          = findClosestLoop p ts cid m := by
        simp [findClosestLoop, h]
      have hm : m ≤ distance3D p t := le_of_not_lt h
      rcases findClosestLoop_cases p ts cid m with
        ⟨heq, hmin⟩ | ⟨pre, u, post, hts, heq, hlt, hmin, hpre⟩
      · refine Or.inl ⟨by rw [step, heq], ?_⟩
        intro v hv
        rcases List.mem_cons.mp hv with rfl | hv
        · exact hm
        · exact hmin v hv
      · refine Or.inr ⟨t :: pre, u, post, by simp [hts], by rw [step, heq], hlt, ?_, ?_⟩
        · intro v hv
          rcases List.mem_cons.mp hv with rfl | hv
          · exact le_trans (le_of_lt hlt) hm
          · exact hmin v hv
        · intro v hv
          rcases List.mem_cons.mp hv with rfl | hv
          · exact lt_of_lt_of_le hlt hm
          · exact hpre v hv

/-- C4: on a non-empty candidate list, `findClosestTarget` returns the
identifier of a candidate in the list whose distance to the origin point
is minimal, and every candidate strictly before it in input order is
strictly farther — exact ties are won by the first candidate in order. -/
theorem findClosestTarget_spec (p : Coordinate) (targets : List Coordinate)
    (h : targets ≠ []) :
    ∃ pre t post, targets = pre ++ t :: post
      ∧ findClosestTarget p targets = t.ID
      ∧ (∀ u ∈ targets, distance3D p t ≤ distance3D p u)
      ∧ (∀ u ∈ pre, distance3D p t < distance3D p u) := by
  match targets, h with
  | t0 :: rest, _ =>
    rcases findClosestLoop_cases p rest t0.ID (distance3D p t0) with
      ⟨heq, hmin⟩ | ⟨pre, u, post, hts, heq, hlt, hmin, hpre⟩
    · refine ⟨[], t0, rest, rfl, by simp [findClosestTarget, heq], ?_, by simp⟩
      intro v hv
      rcases List.mem_cons.mp hv with rfl | hv
      · exact le_refl _
      · exact hmin v hv
    · refine ⟨t0 :: pre, u, post, by simp [hts], by simp [findClosestTarget, heq], ?_, ?_⟩
      · intro v hv
        rcases List.mem_cons.mp hv with rfl | hv
        · exact le_of_lt hlt
        · exact hmin v hv
      · intro v hv
        rcases List.mem_cons.mp hv with rfl | hv
        · exact hlt
        · exact hpre v hv

/-- Witness for `findClosestTarget_spec` on the spec's worked scenario
(`T1` at distance 10, `T2` at distance 3). -/
theorem findClosestTarget_spec_witness :
    sampleChallenge.Targets ≠ []
    ∧ ∃ pre t post, sampleChallenge.Targets = pre ++ t :: post
        ∧ findClosestTarget sampleChallenge.PlayerPos sampleChallenge.Targets = t.ID
        ∧ (∀ u ∈ sampleChallenge.Targets,
            distance3D sampleChallenge.PlayerPos t
              ≤ distance3D sampleChallenge.PlayerPos u)
        ∧ (∀ u ∈ pre, distance3D sampleChallenge.PlayerPos t
              < distance3D sampleChallenge.PlayerPos u) :=
  ⟨by simp [sampleChallenge],
    findClosestTarget_spec sampleChallenge.PlayerPos sampleChallenge.Targets
      (by simp [sampleChallenge])⟩

/-- On a non-empty list the scan returns the identifier of some element. -/
theorem findClosestTarget_mem (p : Coordinate) (targets : List Coordinate)
    (h : targets ≠ []) :
    findClosestTarget p targets ∈ targets.map (fun t => t.ID) := by
  match targets, h with
  | t0 :: rest, _ =>
    rcases findClosestLoop_cases p rest t0.ID (distance3D p t0) with
      ⟨heq, _⟩ | ⟨pre, u, post, hts, heq, _, _, _⟩
    · simp [findClosestTarget, heq]
    · have hmem : u ∈ t0 :: rest := by
        rw [hts]
        exact List.mem_cons_of_mem _ (List.mem_append_right _ (List.mem_cons_self _ _))
      have hres : findClosestTarget p (t0 :: rest) = u.ID := by
        simp [findClosestTarget, heq]
      rw [hres]
      exact List.mem_map.mpr ⟨u, hmem, rfl⟩

/-! ### Feedback-loop lemmas (failure-branch distances) -/

/-- If no target carries the expected identifier, the first feedback
component keeps its incoming value. -/
theorem feedbackLoop_fst_of_not_mem (p : Coordinate) (e c : String) :
    ∀ (ts : List Coordinate) (acc : ℝ × ℝ),
      e ∉ ts.map (fun t => t.ID) → (feedbackLoop p e c ts acc).1 = acc.1
  | [], _, _ => rfl
  | t :: ts, acc, h => by
    rw [List.map_cons, List.mem_cons] at h
    push_neg at h
    have hne : (t.ID == e) = false := beq_eq_false_iff_ne.mpr (fun hh => h.1 hh.symm)
    simp only [feedbackLoop, hne, Bool.false_eq_true, if_false]
    exact feedbackLoop_fst_of_not_mem p e c ts _ h.2

/-- If no target carries the chosen identifier, the second feedback
component keeps its incoming value. -/
theorem feedbackLoop_snd_of_not_mem (p : Coordinate) (e c : String) :
    ∀ (ts : List Coordinate) (acc : ℝ × ℝ),
      c ∉ ts.map (fun t => t.ID) → (feedbackLoop p e c ts acc).2 = acc.2
  | [], _, _ => rfl
  | t :: ts, acc, h => by
    rw [List.map_cons, List.mem_cons] at h
    push_neg at h
    have hne : (t.ID == c) = false := beq_eq_false_iff_ne.mpr (fun hh => h.1 hh.symm)
    simp only [feedbackLoop, hne, Bool.false_eq_true, if_false]
    exact feedbackLoop_snd_of_not_mem p e c ts _ h.2

/-- With pairwise-distinct target identifiers, the first feedback
component ends at the distance of the unique target carrying the
expected identifier. -/
theorem feedbackLoop_fst_of_mem (p : Coordinate) (e c : String) :
    ∀ (ts : List Coordinate) (acc : ℝ × ℝ) (te : Coordinate),
      (ts.map (fun t => t.ID)).Nodup → te ∈ ts → te.ID = e →
      (feedbackLoop p e c ts acc).1 = distance3D p te
  | [], _, te, _, hmem, _ => absurd hmem (List.not_mem_nil te)
  | t :: ts, acc, te, hnodup, hmem, hid => by
    rw [List.map_cons] at hnodup
    have hnd := List.nodup_cons.mp hnodup
    rcases List.mem_cons.mp hmem with rfl | hmem'
    · have hbeq : (te.ID == e) = true := beq_iff_eq.mpr hid
      have hnot : e ∉ ts.map (fun t => t.ID) := by
        rw [← hid]; exact hnd.1
      simp only [feedbackLoop, hbeq, if_true]
      exact feedbackLoop_fst_of_not_mem p e c ts _ hnot
    · have hne : (t.ID == e) = false := by
        apply beq_eq_false_iff_ne.mpr
        intro hh
        exact hnd.1 (by
          rw [hh, ← hid]
          exact List.mem_map.mpr ⟨te, hmem', rfl⟩)
      simp only [feedbackLoop, hne, Bool.false_eq_true, if_false]
      exact feedbackLoop_fst_of_mem p e c ts _ te hnd.2 hmem' hid

/-- With pairwise-distinct target identifiers, the second feedback
component ends at the distance of the unique target carrying the chosen
identifier. -/
theorem feedbackLoop_snd_of_mem (p : Coordinate) (e c : String) :
    ∀ (ts : List Coordinate) (acc : ℝ × ℝ) (tc : Coordinate),
      (ts.map (fun t => t.ID)).Nodup → tc ∈ ts → tc.ID = c →
      (feedbackLoop p e c ts acc).2 = distance3D p tc
  | [], _, tc, _, hmem, _ => absurd hmem (List.not_mem_nil tc)
  | t :: ts, acc, tc, hnodup, hmem, hid => by
    rw [List.map_cons] at hnodup
    have hnd := List.nodup_cons.mp hnodup
    rcases List.mem_cons.mp hmem with rfl | hmem'
    · have hbeq : (tc.ID == c) = true := beq_iff_eq.mpr hid
      have hnot : c ∉ ts.map (fun t => t.ID) := by
        rw [← hid]; exact hnd.1
      simp only [feedbackLoop, hbeq, if_true]
      exact feedbackLoop_snd_of_not_mem p e c ts _ hnot
    · have hne : (t.ID == c) = false := by
        apply beq_eq_false_iff_ne.mpr
        intro hh
        exact hnd.1 (by
          rw [hh, ← hid]
          exact List.mem_map.mpr ⟨tc, hmem', rfl⟩)
      simp only [feedbackLoop, hne, Bool.false_eq_true, if_false]
      exact feedbackLoop_snd_of_mem p e c ts _ tc hnd.2 hmem' hid

/-! ### C3 — grading within the deadline -/

/-- C3: for a stored record, the deadline check precedes the correctness
check — past the deadline the verdict is EXPIRED no matter which id was
chosen; within the deadline the expected id is graded SUCCESS, and any
other id carried by one of the challenge's targets is graded FAILURE
carrying the expected id, the chosen id, and the Euclidean distances from
the player position to the expected and to the chosen target; both graded
outcomes remove the record from the registry. -/
theorem grading_within_deadline_spec (st : Store) (resp : TargetResponse)
    (now : Int) (d : ChallengeData)
    (hfound : storeLookup st resp.ChallengeID = some d)
    (hnodup : (d.Challenge.Targets.map (fun t => t.ID)).Nodup) :
    (now - d.CreatedAt > timeSecond →
      coordinatesAnswerHandler (some resp) now st
        = (Verdict.expired (now - d.CreatedAt), st))
    ∧ (¬ (now - d.CreatedAt > timeSecond) → resp.ClosestID = d.ExpectedAnswer →
      coordinatesAnswerHandler (some resp) now st
        = (Verdict.success (now - d.CreatedAt) resp.ClosestID,
           storeDelete st resp.ChallengeID))
    ∧ (∀ te tc, ¬ (now - d.CreatedAt > timeSecond) →
      resp.ClosestID ≠ d.ExpectedAnswer →
      te ∈ d.Challenge.Targets → te.ID = d.ExpectedAnswer →
      tc ∈ d.Challenge.Targets → tc.ID = resp.ClosestID →
      coordinatesAnswerHandler (some resp) now st
        = (Verdict.failure d.ExpectedAnswer resp.ClosestID
            (distance3D d.Challenge.PlayerPos te)
            (distance3D d.Challenge.PlayerPos tc),
           storeDelete st resp.ChallengeID)) := by
  refine ⟨fun hlate => ?_, fun hdl hok => ?_, fun te tc hdl hne hte hteid htc htcid => ?_⟩
  · simp only [coordinatesAnswerHandler, hfound]
    simp [hlate]
  · have hbeq : (resp.ClosestID == d.ExpectedAnswer) = true := beq_iff_eq.mpr hok
    simp only [coordinatesAnswerHandler, hfound]
    simp [hdl, hbeq]
  · have h1 := feedbackLoop_fst_of_mem d.Challenge.PlayerPos d.ExpectedAnswer
      resp.ClosestID d.Challenge.Targets (0 : ℝ × ℝ) te hnodup hte hteid
    have h2 := feedbackLoop_snd_of_mem d.Challenge.PlayerPos d.ExpectedAnswer
      resp.ClosestID d.Challenge.Targets (0 : ℝ × ℝ) tc hnodup htc htcid
    have hbeq : (resp.ClosestID == d.ExpectedAnswer) = false :=
      beq_eq_false_iff_ne.mpr hne
    simp only [coordinatesAnswerHandler, hfound]
    simp [hdl, hbeq, h1, h2]

/-- Witness for `grading_within_deadline_spec` at the sample registry. -/
theorem grading_within_deadline_spec_witness :
    storeLookup sampleStore "TARG-1" = some sampleRecord
    ∧ (sampleRecord.Challenge.Targets.map (fun t => t.ID)).Nodup
    ∧ (((0:Int) - sampleRecord.CreatedAt > timeSecond →
        coordinatesAnswerHandler (some ⟨"TARG-1", "T2"⟩) 0 sampleStore
          = (Verdict.expired (0 - sampleRecord.CreatedAt), sampleStore))
      ∧ (¬ ((0:Int) - sampleRecord.CreatedAt > timeSecond) →
          ("T2" : String) = sampleRecord.ExpectedAnswer →
        coordinatesAnswerHandler (some ⟨"TARG-1", "T2"⟩) 0 sampleStore
          = (Verdict.success (0 - sampleRecord.CreatedAt) "T2",
             storeDelete sampleStore "TARG-1"))
      ∧ (∀ te tc, ¬ ((0:Int) - sampleRecord.CreatedAt > timeSecond) →
          ("T2" : String) ≠ sampleRecord.ExpectedAnswer →
          te ∈ sampleRecord.Challenge.Targets → te.ID = sampleRecord.ExpectedAnswer →
          tc ∈ sampleRecord.Challenge.Targets → tc.ID = "T2" →
        coordinatesAnswerHandler (some ⟨"TARG-1", "T2"⟩) 0 sampleStore
          = (Verdict.failure sampleRecord.ExpectedAnswer "T2"
              (distance3D sampleRecord.Challenge.PlayerPos te)
              (distance3D sampleRecord.Challenge.PlayerPos tc),
             storeDelete sampleStore "TARG-1"))) :=
  ⟨rfl, by decide,
    grading_within_deadline_spec sampleStore ⟨"TARG-1", "T2"⟩ 0 sampleRecord
      rfl (by decide)⟩

/-! ### C10 — chosen identifier absent from the target list -/

/-- C10: within the deadline, a chosen identifier that differs from the
expected answer and is carried by none of the challenge's targets is
graded FAILURE with a reported chosen-target distance of `0`: the
feedback loop never assigns the chosen distance, so its zero-initialised
value is reported rather than an error or a not-found signal. -/
theorem unknown_chosen_id_distance_zero (st : Store) (resp : TargetResponse)
    (now : Int) (d : ChallengeData)
    (hfound : storeLookup st resp.ChallengeID = some d)
    (hdl : ¬ (now - d.CreatedAt > timeSecond))
    (hne : resp.ClosestID ≠ d.ExpectedAnswer)
    (hnm : resp.ClosestID ∉ d.Challenge.Targets.map (fun t => t.ID)) :
    coordinatesAnswerHandler (some resp) now st
      = (Verdict.failure d.ExpectedAnswer resp.ClosestID
          (feedbackLoop d.Challenge.PlayerPos d.ExpectedAnswer resp.ClosestID
            d.Challenge.Targets (0, 0)).1 0,
         storeDelete st resp.ChallengeID) := by
  have h2 := feedbackLoop_snd_of_not_mem d.Challenge.PlayerPos d.ExpectedAnswer
    resp.ClosestID d.Challenge.Targets (0 : ℝ × ℝ) hnm
  have hbeq : (resp.ClosestID == d.ExpectedAnswer) = false :=
    beq_eq_false_iff_ne.mpr hne
  simp only [coordinatesAnswerHandler, hfound]
  simp [hdl, hbeq, h2]

/-- Witness for `unknown_chosen_id_distance_zero`: the chosen id `"T9"`
names none of the sample challenge's targets. -/
theorem unknown_chosen_id_distance_zero_witness :
    storeLookup sampleStore "TARG-1" = some sampleRecord
    ∧ ¬ ((0:Int) - sampleRecord.CreatedAt > timeSecond)
    ∧ ("T9" : String) ≠ sampleRecord.ExpectedAnswer
    ∧ ("T9" : String) ∉ sampleRecord.Challenge.Targets.map (fun t => t.ID)
    ∧ coordinatesAnswerHandler (some ⟨"TARG-1", "T9"⟩) 0 sampleStore
        = (Verdict.failure sampleRecord.ExpectedAnswer "T9"
            (feedbackLoop sampleRecord.Challenge.PlayerPos
              sampleRecord.ExpectedAnswer "T9"
              sampleRecord.Challenge.Targets (0, 0)).1 0,
           storeDelete sampleStore "TARG-1") :=
  ⟨rfl, by decide, by decide, by decide,
    unknown_chosen_id_distance_zero sampleStore ⟨"TARG-1", "T9"⟩ 0 sampleRecord
      rfl (by decide) (by decide) (by decide)⟩

/-! ### Generator lemmas -/

/-- The generator always produces `5 + k` targets. -/
theorem generateChallenge_length (idNum k : Nat) (draws : Nat → ℝ × ℝ × ℝ)
    (nowUnix : Int) :
    (generateChallenge idNum k draws nowUnix).Targets.length = 5 + k := by
  simp [generateChallenge]

/-- The generated target identifiers are the sequential tags
`"T1"`, ..., `"T(5+k)"` in order. -/
theorem generateChallenge_ids (idNum k : Nat) (draws : Nat → ℝ × ℝ × ℝ)
    (nowUnix : Int) :
    (generateChallenge idNum k draws nowUnix).Targets.map (fun t => t.ID)
      = (List.range (5 + k)).map (fun i => "T" ++ toString (i + 1)) := by
  simp only [generateChallenge, List.map_map]
  rfl

/-- Sequential tags are pairwise distinct for every count the generator
can draw. -/
theorem rangeTags_nodup (n : Nat) (hn : n ≤ 8) :
    ((List.range n).map (fun i => "T" ++ toString (i + 1))).Nodup := by
  interval_cases n <;> decide

/-- A sequential tag is never the empty string. -/
theorem tag_ne_empty (s : String) : ("T" ++ s) ≠ "" := by
  intro h
  have h2 := congrArg String.length h
  rw [String.length_append] at h2
  simp at h2
  exact absurd h2.1 (by decide)

/-! ### C6 — shape of generated challenges -/

/-- C6: every generated challenge has between 5 and 8 targets (inclusive),
pairwise-distinct target identifiers, and every target's coordinates
within the per-axis ranges: x and y within ±100 and z within ±50. -/
theorem generateChallenge_spec (idNum k : Nat) (draws : Nat → ℝ × ℝ × ℝ)
    (nowUnix : Int) (hk : k < 4)
    (hdraws : ∀ i, 0 ≤ (draws i).1 ∧ (draws i).1 < 1
      ∧ 0 ≤ (draws i).2.1 ∧ (draws i).2.1 < 1
      ∧ 0 ≤ (draws i).2.2 ∧ (draws i).2.2 < 1) :
    5 ≤ (generateChallenge idNum k draws nowUnix).Targets.length
    ∧ (generateChallenge idNum k draws nowUnix).Targets.length ≤ 8
    ∧ ((generateChallenge idNum k draws nowUnix).Targets.map (fun t => t.ID)).Nodup
    ∧ ∀ t ∈ (generateChallenge idNum k draws nowUnix).Targets,
        -100 ≤ t.X ∧ t.X ≤ 100 ∧ -100 ≤ t.Y ∧ t.Y ≤ 100
        ∧ -50 ≤ t.Z ∧ t.Z ≤ 50 := by
  refine ⟨?_, ?_, ?_, ?_⟩
  · rw [generateChallenge_length]
    omega
  · rw [generateChallenge_length]
    omega
  · rw [generateChallenge_ids]
    exact rangeTags_nodup (5 + k) (by omega)
  · intro t ht
    simp only [generateChallenge, List.mem_map, List.mem_range] at ht
    obtain ⟨i, -, rfl⟩ := ht
    obtain ⟨h1, h2, h3, h4, h5, h6⟩ := hdraws i
    refine ⟨by nlinarith, by nlinarith, by nlinarith, by nlinarith,
      by nlinarith, by nlinarith⟩

/-- A constant draw function with every component `1/2`. -/
noncomputable def halfDraws : Nat → ℝ × ℝ × ℝ := fun _ => (1/2, 1/2, 1/2)

/-- Witness for `generateChallenge_spec` with count draw `0` and all
coordinate draws `1/2`. -/
theorem generateChallenge_spec_witness :
    (0 : Nat) < 4
    ∧ (∀ i, 0 ≤ (halfDraws i).1 ∧ (halfDraws i).1 < 1
        ∧ 0 ≤ (halfDraws i).2.1 ∧ (halfDraws i).2.1 < 1
        ∧ 0 ≤ (halfDraws i).2.2 ∧ (halfDraws i).2.2 < 1)
    ∧ (5 ≤ (generateChallenge 0 0 halfDraws 0).Targets.length
      ∧ (generateChallenge 0 0 halfDraws 0).Targets.length ≤ 8
      ∧ ((generateChallenge 0 0 halfDraws 0).Targets.map (fun t => t.ID)).Nodup
      ∧ ∀ t ∈ (generateChallenge 0 0 halfDraws 0).Targets,
          -100 ≤ t.X ∧ t.X ≤ 100 ∧ -100 ≤ t.Y ∧ t.Y ≤ 100
          ∧ -50 ≤ t.Z ∧ t.Z ≤ 50) :=
  ⟨by norm_num, fun i => by norm_num [halfDraws],
    generateChallenge_spec 0 0 halfDraws 0 (by norm_num)
      (fun i => by norm_num [halfDraws])⟩

/-! ### C9 — the stored record's expected answer -/

/-- C9: the record inserted by the challenge-issuing path carries an
expected answer that is a non-empty string equal to the identifier of one
of its own challenge's targets, and no registry operation rewrites a
stored record's expected answer: a lookup after a delete or a sweep
yields either absence or exactly the record stored before, and a lookup
after an insert yields either the freshly inserted record (a fresh birth)
or exactly the record stored before. -/
theorem challengeRecord_expectedAnswer_invariant (idNum k : Nat)
    (draws : Nat → ℝ × ℝ × ℝ) (nowUnix nowInstant : Int) (st : Store) :
    (∃ d, storeLookup (coordinatesChallengeHandler idNum k draws nowUnix nowInstant st)
          (generateChallenge idNum k draws nowUnix).ChallengeID = some d
      ∧ d.Challenge = generateChallenge idNum k draws nowUnix
      ∧ d.ExpectedAnswer ∈ d.Challenge.Targets.map (fun t => t.ID)
      ∧ d.ExpectedAnswer ≠ "")
    ∧ (∀ (st' : Store) (cid c : String),
        storeLookup (storeDelete st' cid) c = none
        ∨ storeLookup (storeDelete st' cid) c = storeLookup st' c)
    ∧ (∀ (st' : Store) (now : Int) (c : String),
        storeLookup (cleanupExpiredChallenges now st') c = none
        ∨ storeLookup (cleanupExpiredChallenges now st') c = storeLookup st' c)
    ∧ (∀ (st' : Store) (cid c : String) (dnew : ChallengeData),
        storeLookup (storeInsert st' cid dnew) c = some dnew
        ∨ storeLookup (storeInsert st' cid dnew) c = storeLookup st' c) := by
  have hne : (generateChallenge idNum k draws nowUnix).Targets ≠ [] := by
    apply List.ne_nil_of_length_pos
    rw [generateChallenge_length]
    omega
  refine ⟨?_, ?_, ?_, ?_⟩
  · refine ⟨{ Challenge := generateChallenge idNum k draws nowUnix
              ExpectedAnswer := findClosestTarget
                (generateChallenge idNum k draws nowUnix).PlayerPos
                (generateChallenge idNum k draws nowUnix).Targets
              CreatedAt := nowInstant }, ?_, rfl, ?_, ?_⟩
    · exact storeLookup_insert_self st _ _
    · exact findClosestTarget_mem _ _ hne
    · have hmem := findClosestTarget_mem
        (generateChallenge idNum k draws nowUnix).PlayerPos _ hne
      rw [generateChallenge_ids] at hmem
      obtain ⟨i, -, hi⟩ := List.mem_map.mp hmem
      rw [← hi]
      exact tag_ne_empty _
  · intro st' cid c
    by_cases h : c = cid
    · left
      simp [storeLookup, storeDelete, h]
    · right
      simp [storeLookup, storeDelete, h]
  · intro st' now c
    unfold storeLookup cleanupExpiredChallenges
    cases hc : st' c with
    | none => left; simp [hc]
    | some d =>
      by_cases hold : d.CreatedAt < now - 2 * timeSecond
      · left
        simp [hc, hold]
      · right
        simp [hc, hold]
  · intro st' cid c dnew
    by_cases h : c = cid
    · left
      simp [storeLookup, storeInsert, h]
    · right
      simp [storeLookup, storeInsert, h]

end MiniBoi
